import Mathlib

/-!
Verification of the sequence-number virtualization engine and the duplex
protocol engine of a two-sided IMAP implementation (Go), via a shallow
embedding of the relevant source into Lean.

The embedding follows `imapserver/conn.go` (MailboxTracker, SessionTracker,
Conn.readCommand, Conn.poll) and `imapclient/client.go` (closeWithError,
completeCommand).  Go `uint32` values are modelled as `Nat`: the tracker code
never overflows (counts only decrease by expunge below the current count or
are set to a caller-supplied value) and never relies on wrap-around.
Go slices become `List`, nil-able fields become `Option`, panics become
`Option.none` results, and the map of attached sessions becomes a list of
session records tagged with an identifier standing for Go pointer identity.
-/

namespace GoImap

/-- IMAP flags are opaque strings here (`imap.Flag` in the source). -/
abbrev Flag := String

/-- `trackerUpdateFetch` from imapserver/conn.go: payload of a FETCH FLAGS
update. -/
structure TrackerUpdateFetch where
  seqNum : Nat
  uid : Nat
  flags : List Flag
deriving DecidableEq, Repr

/-- `trackerUpdate` from imapserver/conn.go: a tagged union encoded by Go zero
values.  Exactly one field is set by the public constructors; a zero/none field
means "absent". -/
structure TrackerUpdate where
  expunge : Nat := 0
  numMessages : Nat := 0
  mailboxFlags : Option (List Flag) := none
  fetch : Option TrackerUpdateFetch := none
deriving DecidableEq, Repr

/-- `SessionTracker` from imapserver/conn.go.  `sid` models Go pointer
identity (sessions are compared with `==` on pointers in the source);
`queue` is the pending update queue; `updates` records whether the
`updates` notification channel is currently set (non-nil), i.e. whether an
`Idle` call is in progress. -/
structure SessionTracker where
  sid : Nat
  queue : List TrackerUpdate := []
  updates : Bool := false
deriving DecidableEq, Repr

/-- `MailboxTracker` from imapserver/conn.go.  `nextSid` is the model's
source of fresh session identities (Go allocates a fresh pointer). -/
structure MailboxTracker where
  numMessages : Nat
  sessions : List SessionTracker := []
  nextSid : Nat := 0
deriving DecidableEq, Repr

/-- `NewMailboxTracker` from imapserver/conn.go. -/
def NewMailboxTracker (numMessages : Nat) : MailboxTracker :=
  { numMessages := numMessages }

/-- `MailboxTracker.NewSession` from imapserver/conn.go: registers a new
session with an empty pending queue; returns the new tracker state and the
new session's identity. -/
def MailboxTracker.NewSession (t : MailboxTracker) : MailboxTracker × Nat :=
  ({ t with
      sessions := t.sessions ++ [{ sid := t.nextSid }]
      nextSid := t.nextSid + 1 },
   t.nextSid)

/-- `SessionTracker.Close` from imapserver/conn.go: unregisters the session
from the mailbox's session set. -/
def MailboxTracker.CloseSession (t : MailboxTracker) (sid : Nat) : MailboxTracker :=
  { t with sessions := t.sessions.filter (fun s => s.sid ≠ sid) }

/-- `MailboxTracker.queueUpdate` from imapserver/conn.go.  `none` models the
two `panic` calls (out-of-range expunge, shrinking message count).  The update
is appended to the queue of every attached session except the `source`
session; then the canonical count is updated. -/
def MailboxTracker.queueUpdate (t : MailboxTracker) (update : TrackerUpdate)
    (source : Option Nat) : Option MailboxTracker :=
  if update.expunge ≠ 0 ∧ t.numMessages < update.expunge then
    none
  else if update.numMessages ≠ 0 ∧ update.numMessages < t.numMessages then
    none
  else
    some { t with
      sessions := t.sessions.map (fun st =>
        if source = some st.sid then st
        else { st with queue := st.queue ++ [update] })
      numMessages :=
        if update.expunge ≠ 0 then t.numMessages - 1
        else if update.numMessages ≠ 0 then update.numMessages
        else t.numMessages }

/-- `MailboxTracker.QueueExpunge` from imapserver/conn.go: panics (`none`) on
a zero sequence number, otherwise queues an expunge update with no source
session. -/
def MailboxTracker.QueueExpunge (t : MailboxTracker) (seqNum : Nat) :
    Option MailboxTracker :=
  if seqNum = 0 then none
  else t.queueUpdate { expunge := seqNum } none

/-- `MailboxTracker.QueueNumMessages` from imapserver/conn.go: queues an
EXISTS update with no source session. -/
def MailboxTracker.QueueNumMessages (t : MailboxTracker) (n : Nat) :
    Option MailboxTracker :=
  t.queueUpdate { numMessages := n } none

/-- `MailboxTracker.QueueMailboxFlags` from imapserver/conn.go (a nil flag
slice is replaced by an empty one). -/
def MailboxTracker.QueueMailboxFlags (t : MailboxTracker) (flags : List Flag) :
    Option MailboxTracker :=
  t.queueUpdate { mailboxFlags := some flags } none

/-- `MailboxTracker.QueueMessageFlags` from imapserver/conn.go: the only
queue operation that passes a source session to `queueUpdate`. -/
def MailboxTracker.QueueMessageFlags (t : MailboxTracker) (seqNum uid : Nat)
    (flags : List Flag) (source : Option Nat) : Option MailboxTracker :=
  t.queueUpdate { fetch := some { seqNum := seqNum, uid := uid, flags := flags } } source

/-- The loop of `SessionTracker.DecodeSeqNum` (imapserver/conn.go), oldest
pending update first.  `none` models the early `return 0` taken when the
number equals a pending expunge target. -/
def decodeSeqNumLoop : List TrackerUpdate → Nat → Option Nat
  | [], seqNum => some seqNum
  | u :: rest, seqNum =>
    if u.expunge = 0 then decodeSeqNumLoop rest seqNum
    else if seqNum = u.expunge then none
    else if u.expunge < seqNum then decodeSeqNumLoop rest (seqNum - 1)
    else decodeSeqNumLoop rest seqNum

/-- `SessionTracker.DecodeSeqNum` from imapserver/conn.go, as a function of
the session's pending queue and the mailbox's canonical count: translates a
client-view sequence number into the server view (0 = not found). -/
def DecodeSeqNum (numMessages : Nat) (queue : List TrackerUpdate) (seqNum : Nat) : Nat :=
  if seqNum = 0 then 0
  else
    match decodeSeqNumLoop queue seqNum with
    | none => 0
    | some n => if numMessages < n then 0 else n

/-- The loop of `SessionTracker.EncodeSeqNum` (imapserver/conn.go), which
iterates the queue newest first: the argument list here is the reversed
queue.  A still-pending EXISTS update equal to the current number yields the
early `return 0`. -/
def encodeSeqNumLoop : List TrackerUpdate → Nat → Nat
  | [], seqNum => seqNum
  | u :: rest, seqNum =>
    if u.numMessages ≠ 0 ∧ seqNum = u.numMessages then 0
    else if u.expunge ≠ 0 ∧ u.expunge ≤ seqNum then encodeSeqNumLoop rest (seqNum + 1)
    else encodeSeqNumLoop rest seqNum

/-- `SessionTracker.EncodeSeqNum` from imapserver/conn.go: translates a
server-view sequence number into the client view (0 = not visible yet). -/
def EncodeSeqNum (numMessages : Nat) (queue : List TrackerUpdate) (seqNum : Nat) : Nat :=
  if seqNum = 0 then 0
  else if numMessages < seqNum then 0
  else encodeSeqNumLoop queue.reverse seqNum

/-- The dequeue step of `SessionTracker.Poll` (imapserver/conn.go) with
`allowExpunge = false`: collect the prefix strictly before the first pending
expunge update; the queue keeps that expunge and everything after it. -/
def pollTakeUntilExpunge : List TrackerUpdate → List TrackerUpdate × List TrackerUpdate
  | [] => ([], [])
  | u :: rest =>
    if u.expunge ≠ 0 then ([], u :: rest)
    else
      let p := pollTakeUntilExpunge rest
      (u :: p.1, p.2)

/-- The dequeue step of `SessionTracker.Poll` (imapserver/conn.go): returns
the updates delivered to the writer (in order) and the remaining queue. -/
def pollSplit (queue : List TrackerUpdate) (allowExpunge : Bool) :
    List TrackerUpdate × List TrackerUpdate :=
  if allowExpunge then (queue, [])
  else pollTakeUntilExpunge queue

/-- `SessionTracker.Poll` lifted to the mailbox model: delivers the dequeued
updates of session `sid` and stores back its truncated queue. -/
def MailboxTracker.pollSession (t : MailboxTracker) (sid : Nat)
    (allowExpunge : Bool) : List TrackerUpdate × MailboxTracker :=
  match t.sessions.find? (fun s => s.sid = sid) with
  | none => ([], t)
  | some s =>
    let p := pollSplit s.queue allowExpunge
    (p.1,
     { t with
        sessions := t.sessions.map (fun st =>
          if st.sid = sid then { st with queue := p.2 } else st) })

/-- Pending queue of session `sid` in tracker `t` (empty if absent). -/
def sessionQueue (t : MailboxTracker) (sid : Nat) : List TrackerUpdate :=
  ((t.sessions.find? (fun s => s.sid = sid)).map SessionTracker.queue).getD []

/-- Client-to-server translation for session `sid` of tracker `t`. -/
def trackerDecode (t : MailboxTracker) (sid n : Nat) : Nat :=
  DecodeSeqNum t.numMessages (sessionQueue t sid) n

/-- Server-to-client translation for session `sid` of tracker `t`. -/
def trackerEncode (t : MailboxTracker) (sid n : Nat) : Nat :=
  EncodeSeqNum t.numMessages (sessionQueue t sid) n

/-! ### Spec-side definitions

These are written from the specification's wording, to be compared with the
definitions above, which are translated from the source. -/

/-- The observer's still-pending expunge targets, oldest-pending-first
(the spec's "still-pending expunge record[s]"). -/
def expungeTargets (q : List TrackerUpdate) : List Nat :=
  (q.filter (fun u => u.expunge ≠ 0)).map TrackerUpdate.expunge

/-- The spec's replay of decode over the pending expunge targets, oldest
first: "if the expunge target equals the number, the message no longer
exists (return 0, i.e. not-found); if the expunge target is smaller than the
number, decrement the number".  `none` is not-found. -/
def replayExpunges : List Nat → Nat → Option Nat
  | [], n => some n
  | e :: rest, n =>
    if n = e then none
    else if e < n then replayExpunges rest (n - 1)
    else replayExpunges rest n

/-- `decode` as worded by the spec: replay the still-pending expunges oldest
first, "then check the result against the canonical count". -/
def decodeSpec (numMessages : Nat) (q : List TrackerUpdate) (n : Nat) : Nat :=
  if n = 0 then 0
  else
    match replayExpunges (expungeTargets q) n with
    | none => 0
    | some r => if numMessages < r then 0 else r

/-- The pending queue marks client-view number `m` as expunged: the spec's
oldest-first replay of the still-pending expunge records resolves `m` to
not-found. -/
def queueMarksExpunged (q : List TrackerUpdate) (m : Nat) : Prop :=
  replayExpunges (expungeTargets q) m = none

instance (q : List TrackerUpdate) (m : Nat) : Decidable (queueMarksExpunged q m) := by
  unfold queueMarksExpunged; infer_instance

/-- `encode` as worded by the spec, walking the pending queue newest-first
(the argument is the reversed queue): "any still-pending grow record whose
new count equals the number being encoded makes the result 0; any
still-pending expunge at or below the number increments the number". -/
def encodeWalkSpec : List TrackerUpdate → Nat → Nat
  | [], n => n
  | u :: rest, n =>
    if u.numMessages ≠ 0 ∧ n = u.numMessages then 0
    else if u.expunge ≠ 0 ∧ u.expunge ≤ n then encodeWalkSpec rest (n + 1)
    else encodeWalkSpec rest n

/-! ### Sequences of tracker operations -/

/-- One attach/detach/notify/poll operation on a mailbox tracker, mirroring
the public API of `MailboxTracker`/`SessionTracker` in imapserver/conn.go. -/
inductive TrackerOp where
  | newSession
  | closeSession (sid : Nat)
  | queueExpunge (seqNum : Nat)
  | queueNumMessages (n : Nat)
  | queueMailboxFlags (flags : List Flag)
  | queueMessageFlags (seqNum uid : Nat) (flags : List Flag) (source : Option Nat)
  | poll (sid : Nat) (allowExpunge : Bool)
deriving DecidableEq, Repr

/-- Apply one tracker operation; `none` models a panic. -/
def applyOp (t : MailboxTracker) : TrackerOp → Option MailboxTracker
  | TrackerOp.newSession => some (t.NewSession).1
  | TrackerOp.closeSession sid => some (t.CloseSession sid)
  | TrackerOp.queueExpunge n => t.QueueExpunge n
  | TrackerOp.queueNumMessages n => t.QueueNumMessages n
  | TrackerOp.queueMailboxFlags fs => t.QueueMailboxFlags fs
  | TrackerOp.queueMessageFlags s u fs src => t.QueueMessageFlags s u fs src
  | TrackerOp.poll sid allow => some (t.pollSession sid allow).2

/-- Run a sequence of tracker operations from a starting state. -/
def runOps (t : MailboxTracker) : List TrackerOp → Option MailboxTracker
  | [] => some t
  | op :: rest => (applyOp t op).bind (fun t' => runOps t' rest)

/-! ### Server connection engine (response-ordering model)

`Conn.readCommand` in imapserver/conn.go dispatches the command to its
handler and then writes the command's responses.  The model below embeds the
response-writing tail of `readCommand` together with `Conn.poll`, recording
the order of wire writes as a list of events.  Write errors (which make
`readCommand` return early) are not modelled: the claims are about which
responses are written and in which order on the non-failing path. -/

/-- `imap.ConnState`. -/
inductive ConnState where
  | notAuthenticated
  | authenticated
  | selected
  | logout
deriving DecidableEq, Repr

/-- The status-response types used on the command-completion path. -/
inductive RespStatus where
  | ok
  | no
  | bad
deriving DecidableEq, Repr

/-- One wire write performed at the end of a command: an unsolicited
(untagged) update delivered by the tracker poll, or a tagged status
response. -/
inductive ConnEvent where
  | untagged (u : TrackerUpdate)
  | tagged (tag : String) (status : RespStatus)
deriving DecidableEq, Repr

/-- The per-connection state that `Conn.poll` reads: the connection state and
this connection's session view of the mailbox tracker. -/
structure ConnModel where
  state : ConnState
  numMessages : Nat
  sessQueue : List TrackerUpdate
deriving DecidableEq, Repr

/-- `Conn.poll` from imapserver/conn.go: polls only in the Authenticated or
Selected states; the FETCH, STORE and SEARCH commands disallow expunges.
Returns the updates written (in order) and the connection state after the
session queue was dequeued. -/
def connPoll (c : ConnModel) (cmd : String) : List TrackerUpdate × ConnModel :=
  match c.state with
  | ConnState.authenticated | ConnState.selected =>
    let allowExpunge :=
      if cmd = "FETCH" ∨ cmd = "STORE" ∨ cmd = "SEARCH" then false else true
    let p := pollSplit c.sessQueue allowExpunge
    (p.1, { c with sessQueue := p.2 })
  | _ => ([], c)

/-- Classification of the handler error performed at the end of
`Conn.readCommand` (imapserver/conn.go): an `*imap.Error` becomes that status
response, a decoder error becomes a BAD client-bug response, any other
non-nil error becomes the internal-server-error NO response, and a nil error
leads to poll-then-OK when the command asks the loop for a tagged OK. -/
inductive CmdOutcome where
  | ok
  | imapError (status : RespStatus)
  | decodeError
  | otherError
deriving DecidableEq, Repr

/-- The response-writing tail of `Conn.readCommand` (imapserver/conn.go),
from the error classification to the final tagged status response: on
success with `sendOK`, the engine first runs `Conn.poll` (writing the queued
unsolicited updates) and only then writes the tagged OK completion. -/
def readCommandFinish (c : ConnModel) (tag cmd : String) (outcome : CmdOutcome)
    (sendOK : Bool) : List ConnEvent × ConnModel :=
  match outcome with
  | CmdOutcome.imapError st => ([ConnEvent.tagged tag st], c)
  | CmdOutcome.decodeError => ([ConnEvent.tagged tag RespStatus.bad], c)
  | CmdOutcome.otherError => ([ConnEvent.tagged tag RespStatus.no], c)
  | CmdOutcome.ok =>
    if sendOK then
      let p := connPoll c cmd
      ((p.1.map ConnEvent.untagged) ++ [ConnEvent.tagged tag RespStatus.ok], p.2)
    else
      ([], c)

/-! ### Client command engine (closure model)

From imapclient/client.go: the pending-command set, the completion (`done`)
channel of each command handle, the continuation-request waiter queue, and
the success-path state transitions of `completeCommand`.  Channels are
modelled by the list of values ever sent on them plus a closed flag. -/

/-- The command kinds that `Client.completeCommand` treats specially. -/
inductive CmdKind where
  | authenticate
  | login
  | unauthenticate
  | select
  | unselect
  | logout
  | list
  | fetch
  | expunge
  | other
deriving DecidableEq, Repr

/-- A client command handle (`commandBase` plus its concrete command type in
imapclient/client.go).  `done` lists the values sent on the command's `done`
channel (`none` = success, `some e` = error); `resultClosed` records that
the result channel of a LIST/FETCH/EXPUNGE command was closed. -/
structure ClientCommand where
  tag : Nat
  kind : CmdKind := CmdKind.other
  mailboxArg : Option String := none
  done : List (Option String) := []
  doneClosed : Bool := false
  resultClosed : Bool := false
deriving DecidableEq, Repr

/-- The parts of `Client` state (imapclient/client.go) that
`closeWithError`/`completeCommand` touch.  `contReqs` holds the tags of the
commands with outstanding continuation-request waiters. -/
structure ClientModel where
  state : ConnState
  mailboxSelected : Option String := none
  pendingCmds : List ClientCommand := []
  contReqs : List Nat := []
  connClosed : Bool := false
deriving DecidableEq, Repr

/-- The effect of `Client.completeCommand` on the command handle itself:
`done <- err; close(done)`, and the result channel of a LIST/FETCH/EXPUNGE
command is closed. -/
def commandCompletion (cmd : ClientCommand) (err : Option String) : ClientCommand :=
  let cmd := { cmd with done := cmd.done ++ [err], doneClosed := true }
  match cmd.kind with
  | CmdKind.list | CmdKind.fetch | CmdKind.expunge => { cmd with resultClosed := true }
  | _ => cmd

/-- `Client.completeCommand` from imapclient/client.go: fulfil the command's
completion channel, cancel and drop its outstanding continuation-request
waiters, and (only when the command succeeded, `err = none`) apply the
kind-specific connection-state transition. -/
def completeCommand (c : ClientModel) (cmd : ClientCommand) (err : Option String) :
    ClientModel × ClientCommand :=
  let c := { c with contReqs := c.contReqs.filter (fun tg => tg ≠ cmd.tag) }
  let c :=
    match err with
    | some _ => c
    | none =>
      match cmd.kind with
      | CmdKind.authenticate | CmdKind.login => { c with state := ConnState.authenticated }
      | CmdKind.unauthenticate =>
        { c with state := ConnState.notAuthenticated, mailboxSelected := none }
      | CmdKind.select => { c with state := ConnState.selected, mailboxSelected := cmd.mailboxArg }
      | CmdKind.unselect => { c with state := ConnState.authenticated }
      | CmdKind.logout => { c with state := ConnState.logout }
      | _ => c
  (c, commandCompletion cmd err)

/-- `Client.closeWithError` from imapclient/client.go: close the transport,
move to the Logout state, empty the pending-command set, then complete every
formerly pending command (in order) with the given error.  Returns the new
client state and the completed command handles. -/
def closeWithError (c : ClientModel) (err : String) : ClientModel × List ClientCommand :=
  let pending := c.pendingCmds
  let c := { c with connClosed := true, state := ConnState.logout, pendingCmds := [] }
  pending.foldl
    (fun acc cmd =>
      let r := completeCommand acc.1 cmd (some err)
      (r.1, acc.2 ++ [r.2]))
    (c, [])

/-! ### Idle exclusivity -/

/-- The entry protocol of `SessionTracker.Idle` (imapserver/conn.go): under
the session lock, the call succeeds only if the `updates` channel is unset
(`ok := t.updates == nil`), in which case it installs the channel; otherwise
it returns an error leaving the session state untouched. -/
def SessionTracker.idleAcquire (t : SessionTracker) : Bool × SessionTracker :=
  if t.updates then (false, t)
  else (true, { t with updates := true })

/-- The deferred exit of `SessionTracker.Idle`: on every return path the
`updates` channel is reset to nil. -/
def SessionTracker.idleRelease (t : SessionTracker) : SessionTracker :=
  { t with updates := false }

/-! ## Theorems -/

theorem decodeSeqNumLoop_eq_replay (q : List TrackerUpdate) (n : Nat) :
    decodeSeqNumLoop q n = replayExpunges (expungeTargets q) n := by
  induction q generalizing n with
  | nil => rfl
  | cons u rest ih =>
    by_cases h : u.expunge = 0
    · have ht : expungeTargets (u :: rest) = expungeTargets rest := by
        simp [expungeTargets, List.filter_cons, h]
      simp only [decodeSeqNumLoop, if_pos h, ht, ih]
    · simp only [decodeSeqNumLoop, if_neg h]
      have ht : expungeTargets (u :: rest) = u.expunge :: expungeTargets rest := by
        simp [expungeTargets, List.filter_cons, h]
      rw [ht]
      simp only [replayExpunges]
      split_ifs <;> simp [ih]

theorem encodeSeqNumLoop_eq_walkSpec (q : List TrackerUpdate) (n : Nat) :
    encodeSeqNumLoop q n = encodeWalkSpec q n := by
  induction q generalizing n with
  | nil => rfl
  | cons u rest ih =>
    simp only [encodeSeqNumLoop, encodeWalkSpec]
    split_ifs <;> simp [ih]

theorem decodeSeqNumLoop_append (xs ys : List TrackerUpdate) (n : Nat) :
    decodeSeqNumLoop (xs ++ ys) n = (decodeSeqNumLoop xs n).bind (decodeSeqNumLoop ys) := by
  induction xs generalizing n with
  | nil => rfl
  | cons u rest ih =>
    simp only [List.cons_append, decodeSeqNumLoop]
    split_ifs <;> simp [ih]



theorem decode_encode_loop (r : List TrackerUpdate) (n : Nat) (hn : 0 < n)
    (hz : encodeSeqNumLoop r n ≠ 0) :
    decodeSeqNumLoop r.reverse (encodeSeqNumLoop r n) = some n := by
  induction r generalizing n with
  | nil => simp [encodeSeqNumLoop, decodeSeqNumLoop]
  | cons u rest ih =>
    by_cases hg : u.numMessages ≠ 0 ∧ n = u.numMessages
    · exfalso
      apply hz
      simp [encodeSeqNumLoop, hg]
    · by_cases he : u.expunge ≠ 0 ∧ u.expunge ≤ n
      · have henc : encodeSeqNumLoop (u :: rest) n = encodeSeqNumLoop rest (n + 1) := by
          simp only [encodeSeqNumLoop, if_neg hg, if_pos he]
        have hz' : encodeSeqNumLoop rest (n + 1) ≠ 0 := by rw [henc] at hz; exact hz
        have ihr := ih (n + 1) (Nat.succ_pos n) hz'
        rw [henc, List.reverse_cons, decodeSeqNumLoop_append, ihr]
        have h1 : ¬ (n + 1 = u.expunge) := by omega
        have h2 : u.expunge < n + 1 := by omega
        simp [decodeSeqNumLoop, he.1, h1, h2]
      · have henc : encodeSeqNumLoop (u :: rest) n = encodeSeqNumLoop rest n := by
          simp only [encodeSeqNumLoop, if_neg hg, if_neg he]
        have ihr := ih n hn (by rw [henc] at hz; exact hz)
        rw [henc, List.reverse_cons, decodeSeqNumLoop_append, ihr]
        by_cases hu : u.expunge = 0
        · simp [decodeSeqNumLoop, hu]
        · have hlt : n < u.expunge := by
            rcases Nat.lt_or_ge n u.expunge with h | h
            · exact h
            · exact absurd ⟨hu, h⟩ he
          have h1 : ¬ (n = u.expunge) := by omega
          have h2 : ¬ (u.expunge < n) := by omega
          simp [decodeSeqNumLoop, hu, h1, h2]



theorem decode_encode (c : Nat) (q : List TrackerUpdate) (n : Nat) (hn : 0 < n)
    (hz : EncodeSeqNum c q n ≠ 0) :
    DecodeSeqNum c q (EncodeSeqNum c q n) = n := by
  have hn0 : ¬ (n = 0) := Nat.pos_iff_ne_zero.mp hn
  by_cases hc : c < n
  · exfalso; apply hz; simp [EncodeSeqNum, hn0, hc]
  · have henc : EncodeSeqNum c q n = encodeSeqNumLoop q.reverse n := by
      simp [EncodeSeqNum, hn0, hc]
    rw [henc] at hz ⊢
    have hdec := decode_encode_loop q.reverse n hn hz
    rw [List.reverse_reverse] at hdec
    simp only [DecodeSeqNum, if_neg hz, hdec]
    simp [Nat.not_lt.mpr (Nat.not_lt.mp hc)]

theorem decode_marked_expunged (c : Nat) (q : List TrackerUpdate) (m : Nat)
    (h : queueMarksExpunged q m) : DecodeSeqNum c q m = 0 := by
  unfold queueMarksExpunged at h
  by_cases hm : m = 0
  · simp [DecodeSeqNum, hm]
  · simp [DecodeSeqNum, hm, decodeSeqNumLoop_eq_replay, h]

theorem pollTakeUntilExpunge_eq (q : List TrackerUpdate) :
    pollTakeUntilExpunge q =
      (q.takeWhile (fun u => u.expunge = 0), q.dropWhile (fun u => u.expunge = 0)) := by
  induction q with
  | nil => rfl
  | cons u rest ih =>
    by_cases h : u.expunge = 0
    · simp [pollTakeUntilExpunge, h, List.takeWhile_cons, List.dropWhile_cons, ih]
    · simp [pollTakeUntilExpunge, h, List.takeWhile_cons, List.dropWhile_cons]



/-- Claim C1: for every observer and every client-view sequence number n > 0,
DecodeSeqNum replays the observer's pending queue oldest-first over the
still-pending expunge records (equal target: not found; smaller target:
decrement), then zeroes any result exceeding the canonical count — i.e. it
agrees with the spec-worded `decodeSpec`.  In the concrete scenario of a
42-message mailbox with one pending expunge of position 20:
decode 20 = 0, decode 10 = 10, decode 30 = 29. -/
theorem claim_C1_decode_replay :
    (∀ (numMessages : Nat) (q : List TrackerUpdate) (n : Nat), 0 < n →
        DecodeSeqNum numMessages q n = decodeSpec numMessages q n) ∧
    (((NewMailboxTracker 42).NewSession).1.QueueExpunge 20).map
        (fun t => (trackerDecode t 0 20, trackerDecode t 0 10, trackerDecode t 0 30))
      = some (0, 10, 29) := by
  constructor
  · intro c q n _
    simp [DecodeSeqNum, decodeSpec, decodeSeqNumLoop_eq_replay]
  · rfl

theorem claim_C1_witness :
    DecodeSeqNum 41 [{ expunge := 20 }] 30 = decodeSpec 41 [{ expunge := 20 }] 30 :=
  claim_C1_decode_replay.1 41 [{ expunge := 20 }] 30 (by decide)

/-- Claim C9: zero is a fixed point at the tracker's public interface — for
every canonical count and pending queue, DecodeSeqNum 0 = 0 and
EncodeSeqNum 0 = 0. -/
theorem claim_C9_zero_fixed_point :
    ∀ (numMessages : Nat) (q : List TrackerUpdate),
      DecodeSeqNum numMessages q 0 = 0 ∧ EncodeSeqNum numMessages q 0 = 0 := by
  intro c q
  exact ⟨rfl, rfl⟩

/-- Claim C2: for every observer and every server-view sequence number n
(1 ≤ n ≤ canonical count), EncodeSeqNum walks the pending queue newest-first:
a still-pending grow record whose count equals the number makes the result 0,
and a still-pending expunge at or below the number increments it — i.e. it
agrees with the spec-worded `encodeWalkSpec` on the reversed queue.  In the
concrete scenario where the count grows from 42 to 43 before observer B
polls: encode 43 = 0, and after B polls it, encode 43 = 43. -/
theorem claim_C2_encode_walk :
    (∀ (numMessages : Nat) (q : List TrackerUpdate) (n : Nat),
        0 < n → n ≤ numMessages →
        EncodeSeqNum numMessages q n = encodeWalkSpec q.reverse n) ∧
    (((NewMailboxTracker 42).NewSession).1.QueueNumMessages 43).map
        (fun t => (trackerEncode t 0 43, trackerEncode (t.pollSession 0 true).2 0 43))
      = some (0, 43) := by
  constructor
  · intro c q n hn hc
    have hn0 : ¬ (n = 0) := Nat.pos_iff_ne_zero.mp hn
    have hc' : ¬ (c < n) := Nat.not_lt.mpr hc
    simp [EncodeSeqNum, hn0, hc', encodeSeqNumLoop_eq_walkSpec]
  · rfl

theorem claim_C2_witness :
    EncodeSeqNum 43 [{ numMessages := 43 }] 43
      = encodeWalkSpec ([{ numMessages := 43 }] : List TrackerUpdate).reverse 43 :=
  claim_C2_encode_walk.1 43 [{ numMessages := 43 }] 43 (by decide) (by decide)

/-- Claim C3: round-trip law.  For every sequence of attach/detach/notify/poll
operations on one mailbox tracker and every attached observer, any
server-view number n > 0 still visible to the observer (EncodeSeqNum n ≠ 0)
satisfies DecodeSeqNum (EncodeSeqNum n) = n, and DecodeSeqNum returns 0 for
any client-view number the observer's pending queue marks as expunged. -/
theorem claim_C3_round_trip :
    ∀ (n0 : Nat) (ops : List TrackerOp) (t : MailboxTracker),
      runOps (NewMailboxTracker n0) ops = some t →
      ∀ s ∈ t.sessions,
        (∀ n, 0 < n → EncodeSeqNum t.numMessages s.queue n ≠ 0 →
            DecodeSeqNum t.numMessages s.queue (EncodeSeqNum t.numMessages s.queue n) = n) ∧
        (∀ m, queueMarksExpunged s.queue m → DecodeSeqNum t.numMessages s.queue m = 0) := by
  intro n0 ops t _ s _
  constructor
  · intro n hn hz
    exact decode_encode t.numMessages s.queue n hn hz
  · intro m hm
    exact decode_marked_expunged t.numMessages s.queue m hm

theorem claim_C3_witness :
    DecodeSeqNum 41 [{ expunge := 20 }] (EncodeSeqNum 41 [{ expunge := 20 }] 10) = 10 := by
  have h := claim_C3_round_trip 42 [TrackerOp.newSession, TrackerOp.queueExpunge 20]
      { numMessages := 41,
        sessions := [{ sid := 0, queue := [{ expunge := 20 }], updates := false }],
        nextSid := 1 }
      (by rfl)
      { sid := 0, queue := [{ expunge := 20 }], updates := false }
      (by simp)
  exact h.1 10 (by decide) (by decide)

/-- Claim C5: partial drain.  For every pending queue, Poll with
allowExpunge = true dequeues and delivers the entire queue leaving it empty,
and Poll with allowExpunge = false delivers exactly the prefix strictly
before the first pending expunge record, leaving that expunge and everything
after it queued. -/
theorem claim_C5_poll_partial_drain :
    ∀ (q : List TrackerUpdate),
      pollSplit q true = (q, []) ∧
      pollSplit q false =
        (q.takeWhile (fun u => u.expunge = 0), q.dropWhile (fun u => u.expunge = 0)) := by
  intro q
  constructor
  · rfl
  · simpa [pollSplit] using pollTakeUntilExpunge_eq q



theorem queueUpdate_some {t : MailboxTracker} {u : TrackerUpdate} {src : Option Nat}
    {t' : MailboxTracker} (h : t.queueUpdate u src = some t') :
    t'.sessions = t.sessions.map (fun st =>
        if src = some st.sid then st else { st with queue := st.queue ++ [u] }) ∧
    t'.numMessages =
      (if u.expunge ≠ 0 then t.numMessages - 1
       else if u.numMessages ≠ 0 then u.numMessages else t.numMessages) := by
  unfold MailboxTracker.queueUpdate at h
  by_cases h1 : u.expunge ≠ 0 ∧ t.numMessages < u.expunge
  · rw [if_pos h1] at h
    simp at h
  · rw [if_neg h1] at h
    by_cases h2 : u.numMessages ≠ 0 ∧ u.numMessages < t.numMessages
    · rw [if_pos h2] at h
      simp at h
    · rw [if_neg h2] at h
      rw [Option.some_inj] at h
      rw [← h]
      exact ⟨rfl, rfl⟩

theorem broadcast_forall₂ {t : MailboxTracker} {u : TrackerUpdate} {src : Option Nat}
    {t' : MailboxTracker} (h : t.queueUpdate u src = some t') :
    List.Forall₂ (fun s s' =>
        (src = some s.sid → s' = s) ∧
        (src ≠ some s.sid → s'.queue = s.queue ++ [u]))
      t.sessions t'.sessions := by
  rw [(queueUpdate_some h).1, List.forall₂_map_right_iff]
  rw [List.forall₂_same]
  intro s _
  constructor
  · intro hs; simp [hs]
  · intro hs; simp [hs]



/-- Claim C4 counterexample: in a mailbox of 1 message with two attached
observers, an expunge performed by observer 0 (necessarily through
`QueueExpunge`, which passes no source session) DOES appear in observer 0's
own pending queue — refuting the claimed self-exclusion for expunge
notifications. -/
theorem claim_C4_counterexample :
    (((((NewMailboxTracker 1).NewSession).1).NewSession).1.QueueExpunge 1).map
        (fun t => (sessionQueue t 0, sessionQueue t 1))
      = some ([{ expunge := 1 }], [{ expunge := 1 }]) ∧
    ([{ expunge := 1 }] : List TrackerUpdate) ≠ [] := by
  exact ⟨rfl, by decide⟩

/-- Claim C4 amended: self-exclusion holds only for message-flag updates —
a flag change queued by `QueueMessageFlags` with source O1 never appears in
O1's own pending queue and is appended exactly once to every other attached
observer's queue; expunge and grow updates carry no source and are appended
exactly once to EVERY attached observer's queue, including the performer's. -/
theorem claim_C4_amended :
    (∀ (t : MailboxTracker) (seqNum uid : Nat) (flags : List Flag) (src : Nat)
        (t' : MailboxTracker),
      t.QueueMessageFlags seqNum uid flags (some src) = some t' →
      List.Forall₂ (fun s s' =>
          (s.sid = src → s' = s) ∧
          (s.sid ≠ src → s'.queue =
            s.queue ++ [{ fetch := some { seqNum := seqNum, uid := uid, flags := flags } }]))
        t.sessions t'.sessions) ∧
    (∀ (t : MailboxTracker) (n : Nat) (t' : MailboxTracker),
      t.QueueExpunge n = some t' →
      List.Forall₂ (fun s s' => s'.queue = s.queue ++ [{ expunge := n }])
        t.sessions t'.sessions) ∧
    (∀ (t : MailboxTracker) (n : Nat) (t' : MailboxTracker),
      t.QueueNumMessages n = some t' →
      List.Forall₂ (fun s s' => s'.queue = s.queue ++ [{ numMessages := n }])
        t.sessions t'.sessions) := by
  refine ⟨?_, ?_, ?_⟩
  · intro t seqNum uid flags src t' h
    have hb := @broadcast_forall₂ t _ (some src) _ h
    refine hb.imp ?_
    intro s s' hss
    constructor
    · intro hs
      exact hss.1 (by simp [hs])
    · intro hs
      exact hss.2 (by simpa using Ne.symm hs)
  · intro t n t' h
    unfold MailboxTracker.QueueExpunge at h
    by_cases hn : n = 0
    · rw [if_pos hn] at h
      simp at h
    · rw [if_neg hn] at h
      have hb := @broadcast_forall₂ t _ none _ h
      refine hb.imp ?_
      intro s s' hss
      exact hss.2 (by simp)
  · intro t n t' h
    unfold MailboxTracker.QueueNumMessages at h
    have hb := @broadcast_forall₂ t _ none _ h
    refine hb.imp ?_
    intro s s' hss
    exact hss.2 (by simp)

theorem claim_C4_witness :
    List.Forall₂
      (fun s s' => SessionTracker.queue s' = SessionTracker.queue s
        ++ [({ expunge := 1 } : TrackerUpdate)])
      [({ sid := 0 } : SessionTracker)]
      [({ sid := 0, queue := [{ expunge := 1 }] } : SessionTracker)] :=
  claim_C4_amended.2.1
    { numMessages := 1, sessions := [{ sid := 0 }], nextSid := 1 } 1
    { numMessages := 0, sessions := [{ sid := 0, queue := [{ expunge := 1 }] }], nextSid := 1 }
    (by rfl)



/-- Claim C6 counterexample: `QueueNumMessages 0` on a tracker holding 42
messages succeeds (no panic) even though 0 < 42 — refuting the claimed
"fails fatally if and only if the new count is less than the current
canonical count". -/
theorem claim_C6_counterexample :
    ((NewMailboxTracker 42).QueueNumMessages 0).isSome = true ∧ (0 : Nat) < 42 := by
  exact ⟨rfl, by decide⟩

/-- Claim C6 amended: `QueueExpunge` fails fatally iff the position is 0 or
exceeds the canonical count; `QueueNumMessages` fails fatally iff the new
count is NONZERO and less than the canonical count (a zero count is treated
as an unset field and bypasses the check, leaving the canonical count
unchanged).  On success the update is broadcast once to every attached
session's queue and the canonical count is decremented by one per expunge,
or set to the new (nonzero) value per grow. -/
theorem claim_C6_amended :
    (∀ (t : MailboxTracker) (n : Nat),
      t.QueueExpunge n = none ↔ n = 0 ∨ t.numMessages < n) ∧
    (∀ (t : MailboxTracker) (n : Nat),
      t.QueueNumMessages n = none ↔ n ≠ 0 ∧ n < t.numMessages) ∧
    (∀ (t : MailboxTracker) (n : Nat) (t' : MailboxTracker),
      t.QueueExpunge n = some t' →
      t'.numMessages = t.numMessages - 1 ∧
      List.Forall₂ (fun s s' => s'.queue = s.queue ++ [{ expunge := n }])
        t.sessions t'.sessions) ∧
    (∀ (t : MailboxTracker) (n : Nat) (t' : MailboxTracker),
      t.QueueNumMessages n = some t' →
      t'.numMessages = (if n = 0 then t.numMessages else n) ∧
      List.Forall₂ (fun s s' => s'.queue = s.queue ++ [{ numMessages := n }])
        t.sessions t'.sessions) := by
  refine ⟨?_, ?_, ?_, ?_⟩
  · intro t n
    by_cases hn : n = 0
    · simp [MailboxTracker.QueueExpunge, hn]
    · simp only [MailboxTracker.QueueExpunge, if_neg hn]
      unfold MailboxTracker.queueUpdate
      by_cases hc : t.numMessages < n
      · simp [hn, hc]
      · simp [hn, hc]
  · intro t n
    simp only [MailboxTracker.QueueNumMessages]
    unfold MailboxTracker.queueUpdate
    by_cases hn : n = 0
    · simp [hn]
    · by_cases hc : n < t.numMessages
      · simp [hn, hc]
      · simp [hn, hc]
  · intro t n t' h
    have hq : t.queueUpdate { expunge := n } none = some t' := by
      by_cases hn : n = 0
      · simp [MailboxTracker.QueueExpunge, hn] at h
      · simpa [MailboxTracker.QueueExpunge, hn] using h
    have hs := queueUpdate_some hq
    refine ⟨?_, ?_⟩
    · rw [hs.2]
      by_cases hn : n = 0
      · simp [MailboxTracker.QueueExpunge, hn] at h
      · simp [hn]
    · have hb := @broadcast_forall₂ t _ none _ hq
      refine hb.imp ?_
      intro s s' hss
      exact hss.2 (by simp)
  · intro t n t' h
    have hq : t.queueUpdate { numMessages := n } none = some t' := h
    have hs := queueUpdate_some hq
    refine ⟨?_, ?_⟩
    · rw [hs.2]
      by_cases hn : n = 0
      · simp [hn]
      · simp [hn]
    · have hb := @broadcast_forall₂ t _ none _ hq
      refine hb.imp ?_
      intro s s' hss
      exact hss.2 (by simp)

theorem claim_C6_witness :
    (MailboxTracker.QueueExpunge
        { numMessages := 2, sessions := [{ sid := 0 }], nextSid := 1 } 1 = none
      ↔ (1 : Nat) = 0 ∨ (2 : Nat) < 1) ∧
    MailboxTracker.numMessages
        { numMessages := 1, sessions := [{ sid := 0, queue := [{ expunge := 1 }] }],
          nextSid := 1 } = 2 - 1 :=
  ⟨claim_C6_amended.1
      ({ numMessages := 2, sessions := [{ sid := 0 }], nextSid := 1 } : MailboxTracker) 1,
   (claim_C6_amended.2.2.1
      ({ numMessages := 2, sessions := [{ sid := 0 }], nextSid := 1 } : MailboxTracker) 1
      ({ numMessages := 1, sessions := [{ sid := 0, queue := [{ expunge := 1 }] }],
         nextSid := 1 } : MailboxTracker)
      (by rfl)).1⟩



theorem commandCompletion_done (cmd : ClientCommand) (err : Option String) :
    (commandCompletion cmd err).done = cmd.done ++ [err] ∧
    (commandCompletion cmd err).doneClosed = true := by
  unfold commandCompletion
  cases cmd.kind <;> exact ⟨rfl, rfl⟩

theorem completeCommand_err_fst (c : ClientModel) (cmd : ClientCommand) (e : String) :
    (completeCommand c cmd (some e)).1
      = { c with contReqs := c.contReqs.filter (fun tg => tg ≠ cmd.tag) } := rfl

theorem closeWithError_foldl (e : String) (l : List ClientCommand) :
    ∀ (c : ClientModel) (acc : List ClientCommand),
      (l.foldl (fun acc cmd =>
          let r := completeCommand acc.1 cmd (some e)
          (r.1, acc.2 ++ [r.2])) (c, acc)).2
        = acc ++ l.map (fun cmd => commandCompletion cmd (some e)) ∧
      (l.foldl (fun acc cmd =>
          let r := completeCommand acc.1 cmd (some e)
          (r.1, acc.2 ++ [r.2])) (c, acc)).1.pendingCmds = c.pendingCmds ∧
      (l.foldl (fun acc cmd =>
          let r := completeCommand acc.1 cmd (some e)
          (r.1, acc.2 ++ [r.2])) (c, acc)).1.state = c.state ∧
      (l.foldl (fun acc cmd =>
          let r := completeCommand acc.1 cmd (some e)
          (r.1, acc.2 ++ [r.2])) (c, acc)).1.connClosed = c.connClosed := by
  induction l with
  | nil => intro c acc; simp
  | cons cmd rest ih =>
    intro c acc
    simp only [List.foldl_cons, List.map_cons]
    have h := ih { c with contReqs := c.contReqs.filter (fun tg => tg ≠ cmd.tag) }
      (acc ++ [commandCompletion cmd (some e)])
    refine ⟨?_, ?_, ?_, ?_⟩
    · exact h.1.trans (by simp)
    · exact h.2.1
    · exact h.2.2.1
    · exact h.2.2.2

/-- Claim C8: client connection-closure cancellation.  `closeWithError`
empties the pending-command set, moves the client to the Logout state with
the transport closed, and fulfils every formerly pending command's
completion channel with the same terminal error; a command whose channel had
not yet been fulfilled receives that error exactly once and its channel is
closed. -/
theorem claim_C8_close_fails_all_pending :
    ∀ (c : ClientModel) (err : String),
      (closeWithError c err).1.pendingCmds = [] ∧
      (closeWithError c err).1.state = ConnState.logout ∧
      (closeWithError c err).1.connClosed = true ∧
      (closeWithError c err).2
        = c.pendingCmds.map (fun cmd => commandCompletion cmd (some err)) ∧
      (∀ cmd ∈ c.pendingCmds, cmd.done = [] →
        (commandCompletion cmd (some err)).done = [some err] ∧
        (commandCompletion cmd (some err)).doneClosed = true) := by
  intro c err
  have h := closeWithError_foldl err c.pendingCmds
    { c with connClosed := true, state := ConnState.logout, pendingCmds := [] } []
  unfold closeWithError
  refine ⟨?_, ?_, ?_, ?_, ?_⟩
  · exact h.2.1
  · exact h.2.2.1
  · exact h.2.2.2
  · simpa using h.1
  · intro cmd _ hdone
    have hc := commandCompletion_done cmd (some err)
    rw [hdone] at hc
    simpa using hc

theorem claim_C8_witness :
    (closeWithError
        { state := ConnState.selected,
          pendingCmds := [{ tag := 1, kind := CmdKind.fetch }], contReqs := [1] }
        "connection closed").2
      = [commandCompletion { tag := 1, kind := CmdKind.fetch } (some "connection closed")] ∧
    (commandCompletion { tag := 1, kind := CmdKind.fetch }
        (some "connection closed")).done = [some "connection closed"] := by
  have h := claim_C8_close_fails_all_pending
    { state := ConnState.selected,
      pendingCmds := [{ tag := 1, kind := CmdKind.fetch }], contReqs := [1] }
    "connection closed"
  exact ⟨h.2.2.2.1,
    (h.2.2.2.2 { tag := 1, kind := CmdKind.fetch } (by simp) (by rfl)).1⟩



/-- Claim C7: update-before-completion ordering.  For a command that
completes successfully and asks the loop for a tagged OK, the
response-writing tail of `readCommand` emits exactly the unsolicited updates
delivered by `Conn.poll` followed by the tagged OK: the tagged completion is
the last event written and everything before it is an untagged update. -/
theorem claim_C7_updates_before_completion :
    ∀ (c : ConnModel) (tag cmd : String),
      (readCommandFinish c tag cmd CmdOutcome.ok true).1
        = ((connPoll c cmd).1.map ConnEvent.untagged)
            ++ [ConnEvent.tagged tag RespStatus.ok] ∧
      (readCommandFinish c tag cmd CmdOutcome.ok true).1.getLast?
        = some (ConnEvent.tagged tag RespStatus.ok) ∧
      (∀ e ∈ (readCommandFinish c tag cmd CmdOutcome.ok true).1.dropLast,
        ∃ u, e = ConnEvent.untagged u) := by
  intro c tag cmd
  refine ⟨rfl, ?_, ?_⟩
  · simp [readCommandFinish]
  · intro e he
    rw [show (readCommandFinish c tag cmd CmdOutcome.ok true).1
          = (List.map ConnEvent.untagged (connPoll c cmd).1)
              ++ [ConnEvent.tagged tag RespStatus.ok] from rfl,
        List.dropLast_concat] at he
    simp only [List.mem_map] at he
    obtain ⟨u, _, hu⟩ := he
    exact ⟨u, hu.symm⟩

theorem claim_C7_witness :
    ∃ u, ConnEvent.untagged ({ numMessages := 5 } : TrackerUpdate)
      = ConnEvent.untagged u :=
  (claim_C7_updates_before_completion
      { state := ConnState.selected, numMessages := 5,
        sessQueue := [{ numMessages := 5 }] }
      "T1" "NOOP").2.2
    (ConnEvent.untagged { numMessages := 5 }) (by simp [readCommandFinish, connPoll, pollSplit])

/-- Claim C10: idle exclusivity.  A second `Idle` entered while one is in
progress fails immediately and leaves the session state (hence the pending
queue) untouched; when no `Idle` is active the call succeeds without touching
the queue; and after an `Idle` returns (the deferred release runs on every
return path) a new `Idle` is accepted again. -/
theorem claim_C10_idle_exclusive :
    (∀ t : SessionTracker, t.updates = true →
      t.idleAcquire = (false, t)) ∧
    (∀ t : SessionTracker, t.updates = false →
      (t.idleAcquire).1 = true ∧ (t.idleAcquire).2.queue = t.queue) ∧
    (∀ t : SessionTracker, ((t.idleRelease).idleAcquire).1 = true) := by
  refine ⟨?_, ?_, ?_⟩
  · intro t ht
    simp [SessionTracker.idleAcquire, ht]
  · intro t ht
    simp [SessionTracker.idleAcquire, ht]
  · intro t
    simp [SessionTracker.idleAcquire, SessionTracker.idleRelease]

theorem claim_C10_witness :
    SessionTracker.idleAcquire { sid := 0, queue := [{ expunge := 3 }], updates := true }
      = (false, { sid := 0, queue := [{ expunge := 3 }], updates := true }) :=
  claim_C10_idle_exclusive.1
    { sid := 0, queue := [{ expunge := 3 }], updates := true } (by rfl)

end GoImap
